import Mathlib

/-!
Verification development for `fancy_getopt.py` (distutils-style command-line
option engine).  The Python source is shallowly embedded: pure functions become
Lean functions, instance state becomes an explicit `FancyGetopt` record that is
threaded through the operations, and every operation that can raise a Python
exception returns in the `Except PyError` monad.  Python dictionaries are
modelled as functions into `Option` (Python dict equality is key-value
equality, independent of insertion order); Python lists are Lean lists.
Python strings are Lean `String`s, manipulated through their character data.
-/

set_option maxRecDepth 20000

/-- The Python exceptions that the embedded code can raise.  Messages follow
the source with the surrounding quote characters omitted. -/
inductive PyError where
  /-- `DistutilsGetoptError` (the ConfigurationError of the spec). -/
  | distutilsGetoptError (msg : String)
  /-- `DistutilsArgError` (the ArgumentError of the spec), wrapping a
  tokenizer message. -/
  | distutilsArgError (msg : String)
  /-- `DistutilsInternalError` (the InternalError of the spec). -/
  | distutilsInternalError (msg : String)
  /-- Python `KeyError` from a failed dict subscript. -/
  | keyError (key : String)
  /-- Python `NameError` from evaluating an undefined name. -/
  | nameError (name : String)
  /-- Python `TypeError`. -/
  | typeError (msg : String)
  /-- Python `RuntimeError`. -/
  | runtimeError (msg : String)
  /-- Python `IndexError`. -/
  | indexError (msg : String)
  deriving DecidableEq, Repr

/-- A Python value as stored by the parser: booleans are the ints `1`/`0` in
the source, value-taking options store the raw string. -/
inductive PyVal where
  | int (n : Int)
  | str (s : String)
  deriving DecidableEq, Repr

/-- A Python dict with keys `α` and values `β`, modelled extensionally. -/
def Dict (α β : Type) : Type := α → Option β

/-- The empty dict `{}`. -/
def Dict.empty {α β : Type} : Dict α β := fun _ => none

/-- Dict assignment `d[k] = v`. -/
def Dict.set {α β : Type} [DecidableEq α] (d : Dict α β) (k : α) (v : β) :
    Dict α β :=
  fun j => if j = k then some v else d j

/-- Apply a list of dict assignments in order (later assignments win). -/
def Dict.applyUpds {α β : Type} [DecidableEq α] (d : Dict α β)
    (us : List (α × β)) : Dict α β :=
  us.foldl (fun d p => d.set p.1 p.2) d

/-- Build a dict from a Python dict literal given as an association list
(later entries win, as in repeated dict assignment). -/
def Dict.ofList {α β : Type} [DecidableEq α] (l : List (α × β)) : Dict α β :=
  Dict.empty.applyUpds l

/-- The value of the last assignment to `k` in an update list, if any. -/
def lastVal {α β : Type} [DecidableEq α] : List (α × β) → α → Option β
  | [], _ => none
  | p :: us, k =>
    match lastVal us k with
    | some v => some v
    | none => if k = p.1 then some p.2 else none

theorem Dict.get_applyUpds {α β : Type} [DecidableEq α] (us : List (α × β)) :
    ∀ (d : Dict α β) (k : α),
      d.applyUpds us k =
        match lastVal us k with
        | some v => some v
        | none => d k := by
  induction us with
  | nil => intro d k; rfl
  | cons p us ih =>
    intro d k
    show (Dict.set d p.1 p.2).applyUpds us k = _
    rw [ih]
    cases h : lastVal us k with
    | some v => simp [lastVal, h]
    | none =>
      simp only [lastVal, h, Dict.set]
      by_cases hk : k = p.1 <;> simp [hk]

/-- Re-applying the same update list leaves a dict unchanged: the final value
of every key is the value of its last update, both times. -/
theorem Dict.applyUpds_applyUpds {α β : Type} [DecidableEq α] (d : Dict α β)
    (us : List (α × β)) : (d.applyUpds us).applyUpds us = d.applyUpds us := by
  funext k
  rw [Dict.get_applyUpds, Dict.get_applyUpds]
  cases h : lastVal us k <;> simp [Dict.get_applyUpds, h]

theorem Dict.applyUpds_append {α β : Type} [DecidableEq α] (d : Dict α β)
    (xs ys : List (α × β)) :
    d.applyUpds (xs ++ ys) = (d.applyUpds xs).applyUpds ys := by
  simp [Dict.applyUpds, List.foldl_append]

/-- Python `s[-1]`, total variant used where the source has already checked
that the string is long enough. -/
def lastChar (s : String) : Option Char := s.data.getLast?

/-- Python `s[0:-1]` on a nonempty string: drop the final character. -/
def strDropLast (s : String) : String := String.mk s.data.dropLast

/-- Python `s[0]` on a string checked to be nonempty (the source only indexes
strings whose length it has already checked). -/
def strHead (s : String) : Char := s.data.headD ' '

/-- `string.translate(long, longopt_xlate)`: replace each hyphen with an
underscore, producing the attribute name of a long option. -/
def longopt_xlate (s : String) : String :=
  String.mk (s.data.map fun c => if c = '-' then '_' else c)

/-- `longopt_re`: the anchored pattern `[a-zA-Z][a-zA-Z0-9-]*`. -/
def longopt_ok (s : String) : Bool :=
  match s.data with
  | [] => false
  | c :: rest =>
    (c.isUpper || c.isLower) &&
      rest.all fun d => d.isUpper || d.isLower || d.isDigit || d = '-'

/-- One entry of the option table: `(long_option, short_option, help_string)`.
The source allows arbitrary objects and type-checks them at compile time; the
embedding fixes the checked types (every claim works with well-typed
entries). -/
structure OptionTuple where
  long : String
  short : Option String
  help : Option String
  deriving DecidableEq, Repr

/-- The target record: an open attribute bag (`OptionDummy` or a
caller-supplied object), modelled as a dict from attribute name to value. -/
def TargetRecord : Type := Dict String PyVal

/-- A new `OptionDummy()`: no attributes set. -/
def OptionDummy : TargetRecord := Dict.empty

/-- The state of a `FancyGetopt` instance. `option_order` is an `Option` so
that the `is None` test in `get_option_order` is expressible; `__init__`
always initialises it to `some []`. -/
structure FancyGetopt where
  option_table : List OptionTuple
  option_index : Dict String OptionTuple
  negative_alias : Dict String String
  short_opts : List String
  long_opts : List String
  short2long : Dict Char String
  attr_name : Dict String String
  takes_arg : Dict String Bool
  option_order : Option (List (String × PyVal))

/-- `build_index`: index every table entry by its (raw) long name.  The loop
contains no raise; later duplicates silently overwrite earlier ones. -/
def buildIndexDict (d : Dict String OptionTuple) (table : List OptionTuple) :
    Dict String OptionTuple :=
  table.foldl (fun d o => d.set o.long o) d

/-- `__init__(option_table)`: store the table, build the index when the table
is truthy (neither `None` nor empty), and zero-initialise everything else. -/
def FancyGetopt.initCore (option_table : Option (List OptionTuple)) :
    FancyGetopt :=
  let table := option_table.getD []
  { option_table := table
    option_index :=
      match option_table with
      | none => Dict.empty
      | some t => if t.isEmpty then Dict.empty else buildIndexDict Dict.empty t
    negative_alias := Dict.empty
    short_opts := []
    long_opts := []
    short2long := Dict.empty
    attr_name := Dict.empty
    takes_arg := Dict.empty
    option_order := some [] }

/-- `FancyGetopt(option_table)` in the error monad: the constructor body
contains no raise, so it always succeeds. -/
def FancyGetopt.init (option_table : Option (List OptionTuple)) :
    Except PyError FancyGetopt :=
  .ok (FancyGetopt.initCore option_table)

/-- `add_option`: refuse a long name that is already in the index with
`DistutilsGetoptError` (option conflict), otherwise append to the table and
the index. -/
def FancyGetopt.add_option (st : FancyGetopt) (long_option : String)
    (short_option : Option String) (help_string : Option String) :
    Except PyError FancyGetopt :=
  if (st.option_index long_option).isSome then
    .error (.distutilsGetoptError
      ("option conflict: already an option " ++ long_option))
  else
    let o : OptionTuple := ⟨long_option, short_option, help_string⟩
    .ok { st with option_table := st.option_table ++ [o]
                  option_index := st.option_index.set long_option o }

/-- `set_negative_aliases`: check that both sides of every pair are keys of
the option index, then store the mapping.  The incoming dict literal is given
as an association list so that the membership checks can scan its items. -/
def FancyGetopt.set_negative_aliases (st : FancyGetopt)
    (negative_alias : List (String × String)) : Except PyError FancyGetopt := do
  for p in negative_alias do
    if (st.option_index p.1).isNone then
      throw (.distutilsGetoptError
        ("invalid negative alias " ++ p.1 ++ ": option " ++ p.1 ++
          " not defined"))
    if (st.option_index p.2).isNone then
      throw (.distutilsGetoptError
        ("invalid negative alias " ++ p.1 ++ ": aliased option " ++ p.2 ++
          " not defined"))
  return { st with negative_alias := Dict.ofList negative_alias }

/-- The common tail of both branches of the `_grok_option_table` loop body
(source lines 177-185): the long-name pattern check, the attribute name, and
the short-option bookkeeping.  `long` is the (marker-stripped) long name and
`short` the possibly `:`-suffixed short option. -/
def grokFinish (long : String) (short : Option String) (st2 : FancyGetopt) :
    Except PyError FancyGetopt :=
  if ¬ longopt_ok long then
    .error (.distutilsGetoptError
      ("invalid long option name " ++ long ++
        " (must be letters, numbers, hyphens only"))
  else
    let st3 := { st2 with attr_name := st2.attr_name.set long (longopt_xlate long) }
    match short with
    | some sh =>
      .ok { st3 with short_opts := st3.short_opts ++ [sh]
                     short2long := st3.short2long.set (strHead sh) long }
    | none => .ok st3

/-- One iteration of the `_grok_option_table` loop, processing a single
option tuple.  Mirrors the source line by line: length checks, append to
`long_opts`, the `=`/negative-alias branch, then `grokFinish`. -/
def grokStep (st : FancyGetopt) (o : OptionTuple) :
    Except PyError FancyGetopt :=
  if o.long.data.length < 2 then
    .error (.distutilsGetoptError
      ("invalid long option " ++ o.long ++
        ": must be a string of length >= 2"))
  else if ¬ (o.short = none ∨ (o.short.getD "").data.length = 1) then
    .error (.distutilsGetoptError
      ("invalid short option " ++ (o.short.getD "") ++
        ": must a single character or None"))
  else
    let st1 := { st with long_opts := st.long_opts ++ [o.long] }
    -- long[-1] == '=' : the option takes an argument
    if lastChar o.long = some '=' then
      let short := o.short.map (· ++ ":")
      let long := strDropLast o.long
      grokFinish long short { st1 with takes_arg := st1.takes_arg.set long true }
    else
      let long := o.long
      match st.negative_alias long with
      | some alias_to =>
        -- self.takes_arg[alias_to] raises KeyError when alias_to has not
        -- been compiled yet
        match st1.takes_arg alias_to with
        | none => .error (.keyError alias_to)
        | some t =>
          if t then
            .error (.distutilsGetoptError
              ("invalid negative alias " ++ long ++ ": aliased option " ++
                alias_to ++ " takes a value"))
          else
            -- self.long_opts[-1] = long  (the redundant rewrite in the source)
            grokFinish long o.short
              { st1 with
                  long_opts := st1.long_opts.dropLast ++ [long]
                  takes_arg := st1.takes_arg.set long false }
      | none =>
        grokFinish long o.short
          { st1 with takes_arg := st1.takes_arg.set long false }

/-- The `for option in self.option_table` loop of `_grok_option_table`,
over an explicit list. -/
def grokList (st : FancyGetopt) : List OptionTuple → Except PyError FancyGetopt
  | [] => .ok st
  | o :: rest =>
    match grokStep st o with
    | .error e => .error e
    | .ok st2 => grokList st2 rest

/-- `_grok_option_table`: populate the derived structures from the current
option table.  Nothing is reset first, so the list-valued structures keep
growing on repeated calls. -/
def grok_option_table (st : FancyGetopt) : Except PyError FancyGetopt :=
  grokList st st.option_table

/-! ## The external tokenizer

`getopt()` delegates tokenization to the standard `getopt.getopt`, which is
not part of this repository.  The definitions in this section are therefore
modelled from the spec, not translated from source. -/

/-- Does the long option `name` take a value, according to the compiled long
spec (whose value-taking entries keep their trailing marker)?  `none` means
the option is unknown. -/
def longTakesVal (name : String) (longSpec : List String) : Option Bool :=
  if (name ++ "=") ∈ longSpec then some true
  else if name ∈ longSpec then some false
  else none

/-- Does the short option `c` take a value, according to the compiled short
spec (entries are one character, with `:` appended for value takers)? -/
def shortTakesVal (c : Char) (shortSpec : List String) : Option Bool :=
  if String.mk [c, ':'] ∈ shortSpec then some true
  else if String.mk [c] ∈ shortSpec then some false
  else none

/-- Split `name=value` at the first `=`; the second component is `none` when
there is no `=`. -/
def splitEq (s : List Char) : String × Option String :=
  let pre := s.takeWhile (· ≠ '=')
  let post := s.dropWhile (· ≠ '=')
  match post with
  | [] => (String.mk pre, none)
  | _ :: v => (String.mk pre, some (String.mk v))

/-- Modelled from the spec: tokenizing one `--name[=value]` argument.  Returns
the `(option, value)` pair and whether the following argument was consumed as
the value.  Fails on an unknown option, a missing required value, or a value
given to a value-less option. -/
def tokLong (body : String) (nextArg : Option String)
    (longSpec : List String) : Except String ((String × String) × Bool) :=
  let (name, eqVal) := splitEq body.data
  match longTakesVal name longSpec with
  | none => .error ("option --" ++ name ++ " not recognized")
  | some true =>
    match eqVal with
    | some v => .ok (("--" ++ name, v), false)
    | none =>
      match nextArg with
      | none => .error ("option --" ++ name ++ " requires argument")
      | some a => .ok (("--" ++ name, a), true)
  | some false =>
    match eqVal with
    | some _ => .error ("option --" ++ name ++ " must not have an argument")
    | none => .ok (("--" ++ name, ""), false)

/-- Modelled from the spec: tokenizing one `-xyz` short-option cluster.
Returns the expanded `(option, value)` pairs and whether the following
argument was consumed as a value. -/
def tokShorts (cluster : List Char) (nextArg : Option String)
    (shortSpec : List String) : Except String (List (String × String) × Bool) :=
  match cluster with
  | [] => .ok ([], false)
  | c :: cs =>
    match shortTakesVal c shortSpec with
    | none => .error ("option -" ++ String.mk [c] ++ " not recognized")
    | some true =>
      if cs.isEmpty then
        match nextArg with
        | none => .error ("option -" ++ String.mk [c] ++ " requires argument")
        | some a => .ok ([(String.mk ['-', c], a)], true)
      else
        .ok ([(String.mk ['-', c], String.mk cs)], false)
    | some false =>
      match tokShorts cs nextArg shortSpec with
      | .error e => .error e
      | .ok (ps, consumed) => .ok ((String.mk ['-', c], "") :: ps, consumed)

/-- The scan loop of the modelled tokenizer, with explicit fuel (one unit
per processed argument; every iteration consumes at least one argument, so
the fuel supplied by `tokenize` is never exhausted). -/
def tokLoop (shortSpec longSpec : List String) :
    Nat → List String → Except String (List (String × String) × List String)
  | _, [] => .ok ([], [])
  | 0, args => .ok ([], args)
  | fuel + 1, a :: rest =>
    if a = "--" then .ok ([], rest)
    else if a.data.take 2 = ['-', '-'] then
      match tokLong (String.mk (a.data.drop 2)) rest.head? longSpec with
      | .error e => .error e
      | .ok (p, consumed) =>
        let rest2 := if consumed then rest.drop 1 else rest
        match tokLoop shortSpec longSpec fuel rest2 with
        | .error e => .error e
        | .ok (ps, resid) => .ok (p :: ps, resid)
    else if a.data.head? = some '-' ∧ a ≠ "-" then
      match tokShorts (a.data.drop 1) rest.head? shortSpec with
      | .error e => .error e
      | .ok (ps1, consumed) =>
        let rest2 := if consumed then rest.drop 1 else rest
        match tokLoop shortSpec longSpec fuel rest2 with
        | .error e => .error e
        | .ok (ps, resid) => .ok (ps1 ++ ps, resid)
    else .ok ([], a :: rest)

/-- Modelled from the spec: the external getopt-style Tokenizer
(`getopt.getopt` of the standard library, out of scope of src/).  Scans the
argument vector left to right, expanding option tokens into `(option, value)`
pairs; scanning stops at `--` or at the first non-option argument, and the
remaining arguments are returned as the residual. -/
def tokenize (shortSpec longSpec : List String) (args : List String) :
    Except String (List (String × String) × List String) :=
  tokLoop shortSpec longSpec args.length args

/-! ## The parse-and-bind loop -/

/-- One iteration of the `for (opt, val) in opts` loop of `getopt()`:
canonicalize the token, enforce the boolean-option contract, apply negative
aliases, set the target attribute and record the pair.

Note on the boolean-option contract check: the source line is
`raise DistutilsInternalError, "this can't happen: bad option value '%s'" % value`
but the local variable holding the value is `val`; the name `value` is bound
nowhere in the function, the module, or the builtins, so evaluating the
message raises `NameError` before the intended exception is constructed. -/
def canonOpt (st : FancyGetopt) (opt0 : String) : Except PyError String :=
  if opt0.data.length = 2 ∧ opt0.data.head? = some '-' then
    match st.short2long (opt0.data.getD 1 ' ') with
    | none => .error (.keyError (String.mk (opt0.data.drop 1)))
    | some l => .ok l
  else if opt0.data.length > 2 ∧ opt0.data.take 2 = ['-', '-'] then
    .ok (String.mk (opt0.data.drop 2))
  else
    .error (.distutilsInternalError
      ("this cant happen: bad option string " ++ opt0))

/-- The boolean-option part of the loop body: reject a non-empty raw value
(see the doc comment above for why this is a `NameError`), then apply a
negative alias.  `if alias:` in the source treats an empty-string alias as
absent. -/
def resolveBool (st : FancyGetopt) (opt : String) (val : String) :
    Except PyError (String × PyVal) :=
  if val ≠ "" then .error (.nameError "value")
  else
    match st.negative_alias opt with
    | some a => if a = "" then .ok (opt, .int 1) else .ok (a, .int 0)
    | none => .ok (opt, .int 1)

def processOpt (acc : FancyGetopt × TargetRecord) (pair : String × String) :
    Except PyError (FancyGetopt × TargetRecord) :=
  let (st, object) := acc
  let (opt0, val) := pair
  match canonOpt st opt0 with
  | .error e => .error e
  | .ok opt =>
    match st.takes_arg opt with
    | none => .error (.keyError opt)
    | some takes =>
      match (if takes then .ok (opt, PyVal.str val)
             else resolveBool st opt val : Except PyError (String × PyVal)) with
      | .error e => .error e
      | .ok (opt, value) =>
        match st.attr_name opt with
        | none => .error (.keyError opt)
        | some attr =>
          .ok ({ st with option_order :=
                  st.option_order.map (· ++ [(opt, value)]) },
               Dict.set object attr value)

/-- The whole binder loop over the tokenized pairs. -/
def processOpts (st : FancyGetopt) (object : TargetRecord)
    (pairs : List (String × String)) :
    Except PyError (FancyGetopt × TargetRecord) :=
  pairs.foldlM processOpt (st, object)

/-- The result of a `getopt()` call.  The source returns `(args, object)`
when it created the target itself and just `args` when the caller supplied
one; the embedding always returns all three components together with the
updated engine state. -/
structure GetoptResult where
  args : List String
  object : TargetRecord
  state : FancyGetopt

/-- `getopt(args, object)`: compile the option table, tokenize, then bind
every `(option, value)` pair onto the target.  A tokenizer failure is wrapped
in `DistutilsArgError`.  The default `args = sys.argv[1:]` is an external
input and is therefore always supplied explicitly here. -/
def FancyGetopt.getopt (st : FancyGetopt) (args : List String)
    (object : Option TargetRecord) : Except PyError GetoptResult := do
  let object := object.getD OptionDummy
  let st ← grok_option_table st
  match tokenize st.short_opts st.long_opts args with
  | .error msg => throw (.distutilsArgError msg)
  | .ok (opts, args) =>
    let (st, object) ← processOpts st object opts
    return ⟨args, object, st⟩

/-- `fancy_getopt(options, negative_opt, object, args)`. -/
def fancy_getopt (options : List OptionTuple)
    (negative_opt : List (String × String)) (object : Option TargetRecord)
    (args : List String) : Except PyError GetoptResult := do
  let parser ← FancyGetopt.init (some options)
  let parser ← parser.set_negative_aliases negative_opt
  parser.getopt args object

/-! ## List identity

The claim that `getopt` returns a fresh residual list and never mutates the
caller's argument list is about Python object identity, so the embedding
gives the lists an identity: a heap maps list ids to list contents, the
caller's argument vector lives at an id, and the tokenizer's residual is a
freshly allocated list (modelled from the spec: stdlib `getopt.getopt`
computes the residual by slicing, and slicing copies; the engine code itself
performs no in-place operation on `args`, it only rebinds the name). -/

structure Heap where
  lists : List (List String)

/-- Allocate a new list object, returning its id. -/
def Heap.alloc (h : Heap) (v : List String) : Nat × Heap :=
  (h.lists.length, ⟨h.lists ++ [v]⟩)

/-- `getopt()` against the heap: read the argument list through the caller's
reference, run the pure engine, then allocate the residual as a fresh list
object. -/
def getoptH (st : FancyGetopt) (h : Heap) (argsRef : Nat)
    (object : Option TargetRecord) :
    Except PyError (GetoptResult × Nat × Heap) :=
  match h.lists[argsRef]? with
  | none => .error (.nameError "args")
  | some args =>
    match st.getopt args object with
    | .error e => .error e
    | .ok res =>
      let (r2, h2) := h.alloc res.args
      .ok (res, r2, h2)

/-! ## The order-record accessor -/

/-- `get_option_order` is defined in the source as `def get_option_order ():`
with an empty parameter list: there is no `self` parameter.  A bound-method
call `parser.get_option_order()` therefore passes one argument to a
zero-parameter function, and Python raises `TypeError` at the call, before
the body can run. -/
def FancyGetopt.get_option_order (_self : FancyGetopt) :
    Except PyError (List (String × PyVal)) :=
  .error (.typeError "get_option_order() takes no arguments (1 given)")

/-- The body of `get_option_order` as written (lines 261-264), evaluated as
if it had received the instance: return the order record unless the
`option_order` attribute is `None`, in which case raise `RuntimeError`. -/
def get_option_order_body (st : FancyGetopt) :
    Except PyError (List (String × PyVal)) :=
  match st.option_order with
  | none => .error (.runtimeError "fancy_getopt() hasnt been called yet")
  | some l => .ok l

/-! ## Text wrapping -/

/-- `string.expandtabs` with the default tab stop of 8: each tab becomes the
run of spaces reaching the next multiple of 8, with the column reset by a
newline or carriage return. -/
def expandtabs (s : List Char) : List Char :=
  (s.foldl
    (fun (acc : List Char × Nat) c =>
      let (out, col) := acc
      if c = '\t' then
        let n := 8 - col % 8
        (out ++ List.replicate n ' ', col + n)
      else if c = '\n' ∨ c = '\x0d' then (out ++ [c], 0)
      else (out ++ [c], col + 1))
    ([], 0)).1

/-- `string.whitespace` of Python 2: tab, newline, vertical tab, form feed,
carriage return, space. -/
def isPyWhitespace (c : Char) : Bool :=
  c = '\t' ∨ c = '\n' ∨ c = '\x0b' ∨ c = '\x0c' ∨ c = '\x0d' ∨ c = ' '

/-- `string.translate(text, WS_TRANS)`: every whitespace character becomes a
plain space. -/
def wsTranslate (s : List Char) : List Char :=
  s.map fun c => if isPyWhitespace c then ' ' else c

/-- The chunk class used by `re.split(r'( +|-+)', text)`: runs of spaces,
runs of hyphens, and runs of everything else. -/
def sameChunkClass (a b : Char) : Bool :=
  (a = ' ' ∧ b = ' ') ∨ (a = '-' ∧ b = '-') ∨
    (a ≠ ' ' ∧ a ≠ '-' ∧ b ≠ ' ' ∧ b ≠ '-')

/-- `re.split(r'( +|-+)', text)` with the captured separators kept and the
empty pieces dropped: the maximal same-class runs of the text, in order. -/
def chunkify (s : List Char) : List (List Char) :=
  s.foldr
    (fun c acc =>
      match acc with
      | [] => [[c]]
      | ch :: rest =>
        match ch with
        | [] => [c] :: rest
        | d :: _ => if sameChunkClass c d then (c :: ch) :: rest else [c] :: acc)
    []

/-- Python `x[0:w]` on a list, including the negative-stop case. -/
def pySlice0 (l : List α) (w : Int) : List α :=
  if w < 0 then l.take (l.length - (-w).toNat)
  else l.take w.toNat

/-- Python `x[w:]` on a list, including the negative-start case. -/
def pySliceFrom (l : List α) (w : Int) : List α :=
  if w < 0 then l.drop (l.length - (-w).toNat)
  else l.drop w.toNat

/-- The inner `while chunks` loop of `wrap_text`: greedily move chunks onto
the current line while they fit; on overflow drop a trailing all-space chunk
from the line and stop.  Returns the closed line, the remaining chunks, and
the accumulated length `cur_len` (which the source does not adjust for the
dropped space chunk). -/
def fillLine (width : Int) :
    List (List Char) → List (List Char) → Nat →
      List (List Char) × List (List Char) × Nat
  | [], line, len => (line, [], len)
  | c :: cs, line, len =>
    if (len + c.length : Int) ≤ width then
      fillLine width cs (line ++ [c]) (len + c.length)
    else
      let line' :=
        match line.getLast? with
        | some lc => if lc.head? = some ' ' then line.dropLast else line
        | none => line
      (line', c :: cs, len)

/-- The outer `while chunks` loop of `wrap_text`, with explicit fuel.  One
unit of fuel is one outer iteration; for `width >= 1` every iteration
strictly decreases the total chunk length plus the chunk count, so the fuel
chosen in `wrap_text` is never exhausted (for `width <= 0` and over-long
text the source itself loops forever). -/
def wrapLoop (width : Int) : Nat → List (List Char) → List String
  | 0, _ => []
  | _, [] => []
  | fuel + 1, chunks =>
    let (line, rest, clen) := fillLine width chunks [] 0
    match rest with
    | [] => [String.mk line.flatten]
    | c :: cs =>
      let (line2, rest2) :=
        if clen = 0 then
          (line ++ [pySlice0 c width], pySliceFrom c width :: cs)
        else (line, c :: cs)
      let rest3 :=
        match rest2 with
        | [] => []
        | d :: ds => if d.head? = some ' ' then ds else rest2
      String.mk line2.flatten :: wrapLoop width fuel rest3

/-- `wrap_text(text, width)`: `None` gives no lines; text that already fits
is returned untouched; otherwise tabs are expanded, whitespace is collapsed
to spaces, the text is split into space/hyphen/word chunks and the chunks are
packed greedily. -/
def wrap_text (text : Option String) (width : Int) : List String :=
  match text with
  | none => []
  | some text =>
    if (text.data.length : Int) ≤ width then [text]
    else
      let chunks := chunkify (wsTranslate (expandtabs text.data))
      wrapLoop width (chunks.foldl (fun n c => n + c.length) 0 +
        chunks.length + 1) chunks

/-! ## Help generation -/

/-- Python `long[-1]` where the string has not been length-checked: an empty
string raises `IndexError`. -/
def pyLast (s : String) : Except PyError Char :=
  match s.data.getLast? with
  | none => .error (.indexError "string index out of range")
  | some c => .ok c

/-- `"%-*s" % (w, s)`: left-justify `s` in a field of width `w` (no
truncation). -/
def padTo (s : String) (w : Nat) : String :=
  s ++ String.mk (List.replicate (w - s.data.length) ' ')

/-- The first pass of `generate_help`: the maximum display length of the long
option names (`=` marker excluded, five extra columns when a short option is
present). -/
def maxOptOf (options : List OptionTuple) : Except PyError Nat :=
  options.foldlM
    (fun acc o => do
      let last ← pyLast o.long
      let l := o.long.data.length
      let l := if last = '=' then l - 1 else l
      let l := if o.short.isSome then l + 5 else l
      return if l > acc then l else acc)
    0

/-- The per-option lines of `generate_help`.  In the short-option case with
no help text the source formats `"  --%-*s" % opt_names`: the `*` width
specifier consumes `opt_names` itself, which is a string and not an int, so
Python raises `TypeError: * wants int`. -/
def helpLinesFor (maxOpt : Nat) (textWidth : Int) (bigIndent : String)
    (o : OptionTuple) : Except PyError (List String) := do
  let text := wrap_text o.help textWidth
  let last ← pyLast o.long
  let long := if last = '=' then strDropLast o.long else o.long
  match o.short with
  | none =>
    let first :=
      match text with
      | t0 :: _ => "  --" ++ padTo long maxOpt ++ "  " ++ t0
      | [] => "  --" ++ padTo long maxOpt ++ "  "
    return first :: (text.drop 1).map (fun l => bigIndent ++ l)
  | some short =>
    let optNames := long ++ " (-" ++ short ++ ")"
    match text with
    | t0 :: _ => return ["  --" ++ padTo optNames maxOpt ++ "  " ++ t0]
    | [] => throw (.typeError "* wants int")

/-- `generate_help(options, header)`: the two-column option summary, one
string per output line. -/
def generate_help (options : List OptionTuple) (header : Option String) :
    Except PyError (List String) := do
  let maxOpt ← maxOptOf options
  let optWidth := maxOpt + 2 + 2 + 2
  let lineWidth : Int := 78
  let textWidth : Int := lineWidth - optWidth
  let bigIndent := String.mk (List.replicate optWidth ' ')
  let first :=
    match header with
    | some h => if h = "" then "Option summary:" else h
    | none => "Option summary:"
  let rest ← options.foldlM
    (fun acc o => do
      let ls ← helpLinesFor maxOpt textWidth bigIndent o
      return acc ++ ls)
    []
  return first :: rest

/-! ## Characterizing a successful compilation

A successful run of `_grok_option_table` applies, to each derived structure,
a sequence of updates that is a pure function of the option table alone.
These update sequences drive the idempotence analysis. -/

/-- The key under which an option is entered in the maps: its long name with
a trailing value marker stripped. -/
def grokKey (o : OptionTuple) : String :=
  if lastChar o.long = some '=' then strDropLast o.long else o.long

/-- Whether an option takes a value: its long name ends in `=`. -/
def grokVal (o : OptionTuple) : Bool := lastChar o.long = some '='

/-- The `takes_arg` updates performed by a run over a table. -/
def taUpds (t : List OptionTuple) : List (String × Bool) :=
  t.map fun o => (grokKey o, grokVal o)

/-- The `attr_name` updates performed by a run over a table. -/
def anUpds (t : List OptionTuple) : List (String × String) :=
  t.map fun o => (grokKey o, longopt_xlate (grokKey o))

/-- The spec entry a short option contributes: `:`-suffixed for value
takers. -/
def shortSpecOf (o : OptionTuple) : Option String :=
  o.short.map fun sh => if grokVal o then sh ++ ":" else sh

/-- The `short2long` update contributed by a short spec entry. -/
def slUpdOf (short : Option String) (long : String) : List (Char × String) :=
  match short with
  | none => []
  | some sh => [(strHead sh, long)]

/-- The `short2long` updates performed for one option. -/
def slUpd (o : OptionTuple) : List (Char × String) :=
  slUpdOf (shortSpecOf o) (grokKey o)

/-- The `short2long` updates performed by a run over a table. -/
def slUpds (t : List OptionTuple) : List (Char × String) :=
  (t.map slUpd).flatten

/-- The `short_opts` entries appended by a run over a table. -/
def shortsOf (t : List OptionTuple) : List String :=
  (t.map fun o => (shortSpecOf o).toList).flatten

/-- The `long_opts` entries appended by a run over a table. -/
def longsOf (t : List OptionTuple) : List String := t.map (·.long)

theorem grokFinish_ok {long : String} {short : Option String}
    {st2 st3 : FancyGetopt} (h : grokFinish long short st2 = .ok st3) :
    st3 = { st2 with
            attr_name := st2.attr_name.set long (longopt_xlate long)
            short_opts := st2.short_opts ++ short.toList
            short2long := st2.short2long.applyUpds (slUpdOf short long) } := by
  unfold grokFinish at h
  split at h
  · exact absurd h (by simp)
  · cases short with
    | none =>
      simp only [Except.ok.injEq] at h
      subst h
      simp [Dict.applyUpds, slUpdOf]
    | some sh =>
      simp only [Except.ok.injEq] at h
      subst h
      simp [Dict.applyUpds, slUpdOf]

theorem grokStep_ok {st st2 : FancyGetopt} {o : OptionTuple}
    (h : grokStep st o = .ok st2) :
    st2 = { st with
            long_opts := st.long_opts ++ [o.long]
            takes_arg := st.takes_arg.set (grokKey o) (grokVal o)
            attr_name := st.attr_name.set (grokKey o) (longopt_xlate (grokKey o))
            short_opts := st.short_opts ++ (shortSpecOf o).toList
            short2long := st.short2long.applyUpds (slUpd o) } := by
  unfold grokStep at h
  split at h
  · exact absurd h (by simp)
  · split at h
    · exact absurd h (by simp)
    · split at h
      case isTrue heq =>
        have hk : grokKey o = strDropLast o.long := by
          unfold grokKey; rw [if_pos heq]
        have hv : grokVal o = true := by
          unfold grokVal; rw [heq]; rfl
        have hss : shortSpecOf o = o.short.map (· ++ ":") := by
          unfold shortSpecOf; rw [hv]; rfl
        rw [grokFinish_ok h, slUpd, hss, hk, hv]
      case isFalse heq =>
        have hk : grokKey o = o.long := by unfold grokKey; rw [if_neg heq]
        have hv : grokVal o = false := by
          unfold grokVal
          simp only [decide_eq_false_iff_not]
          exact heq
        have hss : shortSpecOf o = o.short := by
          unfold shortSpecOf; rw [hv]; cases o.short <;> rfl
        dsimp only at h
        split at h
        case h_1 alias_to hal =>
          split at h
          · exact absurd h (by simp)
          case h_2 t hta =>
            split at h
            · exact absurd h (by simp)
            · rw [grokFinish_ok h, slUpd, hss, hk, hv]
              simp [List.dropLast_concat]
        case h_2 hal =>
          rw [grokFinish_ok h, slUpd, hss, hk, hv]

theorem grokList_ok :
    ∀ (t : List OptionTuple) (st st2 : FancyGetopt),
      grokList st t = .ok st2 →
      st2 = { st with
              long_opts := st.long_opts ++ longsOf t
              takes_arg := st.takes_arg.applyUpds (taUpds t)
              attr_name := st.attr_name.applyUpds (anUpds t)
              short_opts := st.short_opts ++ shortsOf t
              short2long := st.short2long.applyUpds (slUpds t) } := by
  intro t
  induction t with
  | nil =>
    intro st st2 h
    cases h
    simp [longsOf, taUpds, anUpds, shortsOf, slUpds, Dict.applyUpds]
  | cons o rest ih =>
    intro st st2 h
    unfold grokList at h
    split at h
    · exact absurd h (by simp)
    case h_2 mid hmid =>
      rw [ih mid st2 h, grokStep_ok hmid]
      have hta : taUpds (o :: rest) = (grokKey o, grokVal o) :: taUpds rest := rfl
      have han : anUpds (o :: rest) =
        (grokKey o, longopt_xlate (grokKey o)) :: anUpds rest := rfl
      have hsl : slUpds (o :: rest) = slUpd o ++ slUpds rest := by
        simp [slUpds]
      have hsh : shortsOf (o :: rest) =
        (shortSpecOf o).toList ++ shortsOf rest := by
        simp [shortsOf]
      have hlg : longsOf (o :: rest) = o.long :: longsOf rest := rfl
      simp only [hta, han, hsl, hsh, hlg, Dict.applyUpds_append]
      simp [Dict.applyUpds]

theorem grokList_append (xs ys : List OptionTuple) :
    ∀ st : FancyGetopt,
      grokList st (xs ++ ys) =
        match grokList st xs with
        | .error e => .error e
        | .ok mid => grokList mid ys := by
  induction xs with
  | nil => intro st; rfl
  | cons o rest ih =>
    intro st
    simp only [List.cons_append, grokList]
    cases grokStep st o with
    | error e => rfl
    | ok mid => exact ih mid

/-! ## Claim theorems -/

/-- An engine instance as produced by `FancyGetopt(table)` followed by
`set_negative_aliases(na)`: the constructor state with the validated alias
mapping stored (source line 121 stores the mapping unchanged). -/
def engineWith (tbl : List OptionTuple) (na : List (String × String)) :
    FancyGetopt :=
  { FancyGetopt.initCore (some tbl) with negative_alias := Dict.ofList na }

/-- C1, counterexample.  On the single-option table `[("verbose", "v", -)]`
with no negative aliases, running `_grok_option_table` twice does not
reproduce the structures of one run: `long_opts` (the compiled
`longOptsSpec`) comes back doubled, because the compiler appends to the
previous run's lists instead of rebuilding them. -/
theorem C1_counterexample :
    ((grok_option_table (engineWith [⟨"verbose", some "v", none⟩] []) >>=
        grok_option_table).toOption.map (fun s => s.long_opts)) =
      some ["verbose", "verbose"] ∧
    ((grok_option_table (engineWith [⟨"verbose", some "v", none⟩]
        [])).toOption.map (fun s => s.long_opts)) = some ["verbose"] ∧
    some ["verbose", "verbose"] ≠ some ["verbose"] := by
  exact ⟨rfl, rfl, by decide⟩

/-- C1, amended.  For every option table and negative-alias map, if
compilation succeeds and is then run a second time on the same engine
instance and succeeds again, the second run leaves the three dictionaries
(`shortToLong`, `attrNameOf`, `takesValue`) exactly as the first run left
them, but appends a second copy of every entry to the two spec lists
(`longOptsSpec`, `shortOptsSpec`): compilation is cumulative on the lists,
not idempotent. -/
theorem C1_amended (tbl : List OptionTuple) (na : List (String × String))
    (s1 s2 : FancyGetopt)
    (h1 : grok_option_table (engineWith tbl na) = .ok s1)
    (h2 : grok_option_table s1 = .ok s2) :
    s2.short2long = s1.short2long ∧
    s2.attr_name = s1.attr_name ∧
    s2.takes_arg = s1.takes_arg ∧
    s2.long_opts = s1.long_opts ++ s1.long_opts ∧
    s2.short_opts = s1.short_opts ++ s1.short_opts := by
  have e1 := grokList_ok tbl (engineWith tbl na) s1 h1
  have htab : s1.option_table = tbl := by rw [e1]; rfl
  have h2' : grokList s1 tbl = .ok s2 := by
    have : grok_option_table s1 = grokList s1 tbl := by
      unfold grok_option_table; rw [htab]
    rw [← this]; exact h2
  have e2 := grokList_ok tbl s1 s2 h2'
  have hTA : s1.takes_arg = Dict.applyUpds Dict.empty (taUpds tbl) := by rw [e1]; rfl
  have hAN : s1.attr_name = Dict.applyUpds Dict.empty (anUpds tbl) := by rw [e1]; rfl
  have hSL : s1.short2long = Dict.applyUpds Dict.empty (slUpds tbl) := by rw [e1]; rfl
  have hLO : s1.long_opts = longsOf tbl := by rw [e1]; rfl
  have hSO : s1.short_opts = shortsOf tbl := by rw [e1]; rfl
  refine ⟨?_, ?_, ?_, ?_, ?_⟩
  · rw [e2]
    show s1.short2long.applyUpds (slUpds tbl) = s1.short2long
    rw [hSL, Dict.applyUpds_applyUpds]
  · rw [e2]
    show s1.attr_name.applyUpds (anUpds tbl) = s1.attr_name
    rw [hAN, Dict.applyUpds_applyUpds]
  · rw [e2]
    show s1.takes_arg.applyUpds (taUpds tbl) = s1.takes_arg
    rw [hTA, Dict.applyUpds_applyUpds]
  · rw [e2]
    show s1.long_opts ++ longsOf tbl = s1.long_opts ++ s1.long_opts
    rw [hLO]
  · rw [e2]
    show s1.short_opts ++ shortsOf tbl = s1.short_opts ++ s1.short_opts
    rw [hSO]

/-- The table and alias map used to witness C1. -/
def c1Table : List OptionTuple :=
  [⟨"verbose", some "v", none⟩, ⟨"quiet", some "q", none⟩,
   ⟨"output=", some "o", none⟩]

/-- The state after the first compilation of `c1Table`. -/
def c1s1 : FancyGetopt :=
  (grok_option_table (engineWith c1Table [("quiet", "verbose")])).toOption.getD
    (engineWith c1Table [("quiet", "verbose")])

/-- The state after the second compilation. -/
def c1s2 : FancyGetopt := (grok_option_table c1s1).toOption.getD c1s1

/-- C1, witness: the amended statement instantiated on a concrete 3-option
table with one negative alias; both compilations succeed. -/
theorem C1_witness :
    c1s2.short2long = c1s1.short2long ∧
    c1s2.attr_name = c1s1.attr_name ∧
    c1s2.takes_arg = c1s1.takes_arg ∧
    c1s2.long_opts = c1s1.long_opts ++ c1s1.long_opts ∧
    c1s2.short_opts = c1s1.short_opts ++ c1s1.short_opts :=
  C1_amended c1Table [("quiet", "verbose")] c1s1 c1s2 rfl rfl

/-- C2, counterexample.  Loading an initial option table that repeats the
long name `verbose` does not fail: the constructor (and its `build_index`)
performs no duplicate check, and the index silently maps the name to the
last of the duplicate entries. -/
theorem C2_counterexample :
    (FancyGetopt.init (some [⟨"verbose", some "v", none⟩,
        ⟨"verbose", some "V", none⟩])).isOk = true ∧
    (FancyGetopt.init (some [⟨"verbose", some "v", none⟩,
        ⟨"verbose", some "V", none⟩])).toOption.map
      (fun s => s.option_index "verbose") =
      some (some ⟨"verbose", some "V", none⟩) := by
  exact ⟨rfl, rfl⟩

/-- C2, amended.  Adding an option whose long name is already in the index
fails with the ConfigurationError "option conflict" only on an explicit
append via `add_option`; the initial table load never fails, performing no
duplicate detection at all. -/
theorem C2_amended :
    (∀ (st : FancyGetopt) (long : String) (sh hl : Option String),
      (st.option_index long).isSome = true →
      st.add_option long sh hl =
        .error (.distutilsGetoptError
          ("option conflict: already an option " ++ long))) ∧
    (∀ table : Option (List OptionTuple),
      (FancyGetopt.init table).isOk = true) := by
  constructor
  · intro st long sh hl h
    unfold FancyGetopt.add_option
    rw [if_pos h]
  · intro table
    rfl

/-- C2, witness: a conflicting `add_option("verbose")` on an engine whose
index already holds `verbose`, and a successful constructor run. -/
theorem C2_witness :
    (FancyGetopt.initCore (some [⟨"verbose", some "v", none⟩])).add_option
        "verbose" none none =
      .error (.distutilsGetoptError
        ("option conflict: already an option " ++ "verbose")) ∧
    (FancyGetopt.init (some [⟨"verbose", some "v", none⟩])).isOk = true :=
  ⟨C2_amended.1 (FancyGetopt.initCore (some [⟨"verbose", some "v", none⟩]))
      "verbose" none none (by decide),
    C2_amended.2 (some [⟨"verbose", some "v", none⟩])⟩

/-- The two-option table of the negative-alias scenario. -/
def exTable : List OptionTuple :=
  [⟨"verbose", some "v", none⟩, ⟨"quiet", some "q", none⟩]

/-- Its negative-alias map: `quiet` inverts `verbose`. -/
def exAliases : List (String × String) := [("quiet", "verbose")]

/-- C3.  Parsing `["--quiet"]` against the table
`[("verbose","v",-), ("quiet","q",-)]` with alias `{quiet: verbose}` binds
`0` (Python false) onto the `verbose` attribute, sets no `quiet` attribute,
and records `("verbose", 0)` in the order record; and in general, the binder
step on a value-less option that is a negative-alias key binds false onto
the positive target and records the positive target's name. -/
theorem C3_negative_alias :
    ((fancy_getopt exTable exAliases none ["--quiet"]).toOption.map
        (fun r => (r.args, r.object "verbose", r.object "quiet",
          r.state.option_order))) =
      some ([], some (.int 0), none, some [("verbose", PyVal.int 0)]) ∧
    (∀ (st : FancyGetopt) (obj : TargetRecord) (long a attr : String),
      0 < long.data.length →
      st.takes_arg long = some false →
      st.negative_alias long = some a →
      a ≠ "" →
      st.attr_name a = some attr →
      processOpt (st, obj) ("--" ++ long, "") =
        .ok ({ st with option_order :=
                st.option_order.map (fun l => l ++ [(a, PyVal.int 0)]) },
          Dict.set obj attr (PyVal.int 0))) := by
  constructor
  · rfl
  · intro st obj long a attr hlen hta hna hne hattr
    have hdata : ("--" ++ long).data = '-' :: '-' :: long.data := by
      rw [String.data_append]
      rfl
    have hcanon : canonOpt st ("--" ++ long) = .ok long := by
      unfold canonOpt
      simp only [hdata]
      rw [if_neg (by simp only [List.length_cons]; intro hc; omega)]
      rw [if_pos ⟨by simp only [List.length_cons]; omega, rfl⟩]
      rfl
    have hbool : resolveBool st long "" = .ok (a, .int 0) := by
      unfold resolveBool
      rw [if_neg (by simp)]
      rw [hna]
      simp only
      rw [if_neg hne]
    simp only [processOpt, hcanon, hta, Bool.false_eq_true, if_false, hbool,
      hattr]

/-- The engine of the negative-alias scenario after compilation. -/
def c3eng : FancyGetopt :=
  (grok_option_table (engineWith exTable exAliases)).toOption.getD
    (engineWith exTable exAliases)

/-- C3, witness: the general binder statement applied to the compiled
two-option engine, the option `quiet`, its positive target `verbose`, and
the attribute `verbose`. -/
theorem C3_witness :
    processOpt (c3eng, OptionDummy) ("--" ++ "quiet", "") =
      .ok ({ c3eng with option_order :=
              c3eng.option_order.map (fun l => l ++ [("verbose", PyVal.int 0)]) },
        Dict.set OptionDummy "verbose" (PyVal.int 0)) :=
  C3_negative_alias.2 c3eng OptionDummy "quiet" "verbose" "verbose"
    (by decide) rfl rfl (by decide) rfl

/-- If a boolean option is a negative-alias key whose target is already
compiled as value-taking, the compiler step raises the ConfigurationError of
source lines 160-164. -/
theorem grokStep_alias_takesval {st : FancyGetopt} {o : OptionTuple}
    {pos : String}
    (hlen : ¬ o.long.data.length < 2)
    (hshort : o.short = none ∨ (o.short.getD "").data.length = 1)
    (hnoeq : lastChar o.long ≠ some '=')
    (hna : st.negative_alias o.long = some pos)
    (hta : st.takes_arg pos = some true) :
    grokStep st o =
      .error (.distutilsGetoptError
        ("invalid negative alias " ++ o.long ++ ": aliased option " ++
          pos ++ " takes a value")) := by
  unfold grokStep
  rw [if_neg hlen, if_neg (not_not_intro hshort)]
  dsimp only
  rw [if_neg hnoeq, hna]
  dsimp only
  rw [hta]
  rfl

/-- If a boolean option is a negative-alias key whose target is not yet in
`takes_arg`, the compiler step raises `KeyError` at the subscript of source
line 160. -/
theorem grokStep_alias_keyerr {st : FancyGetopt} {o : OptionTuple}
    {pos : String}
    (hlen : ¬ o.long.data.length < 2)
    (hshort : o.short = none ∨ (o.short.getD "").data.length = 1)
    (hnoeq : lastChar o.long ≠ some '=')
    (hna : st.negative_alias o.long = some pos)
    (hta : st.takes_arg pos = none) :
    grokStep st o = .error (.keyError pos) := by
  unfold grokStep
  rw [if_neg hlen, if_neg (not_not_intro hshort)]
  dsimp only
  rw [if_neg hnoeq, hna]
  dsimp only
  rw [hta]

/-- C4, counterexample.  On the table `[("quiet","q",-), ("verbose=","v",-)]`
with alias `{quiet: verbose}` -- the positive target appearing after the
negative option -- compilation fails with `KeyError`, not with the
ConfigurationError the claim demands for every table order. -/
theorem C4_counterexample :
    grok_option_table (engineWith
        [⟨"quiet", some "q", none⟩, ⟨"verbose=", some "v", none⟩]
        [("quiet", "verbose")]) =
      .error (.keyError "verbose") := rfl

/-- C4, amended.  A negative alias whose positive target takes a value makes
compilation fail before any parsing occurs, but the error depends on where
the target sits in the table: if the target has already been compiled when
the negative option is reached (it appears earlier in the table),
compilation fails with the ConfigurationError "aliased option takes a
value"; if it has not been compiled yet (it appears later), compilation
instead fails with a `KeyError` on the `takes_arg` lookup. -/
theorem C4_amended (s0 : FancyGetopt) (A B : List OptionTuple)
    (negE : OptionTuple) (pos : String) (s1 : FancyGetopt)
    (h1 : grokList s0 A = .ok s1)
    (hlen : ¬ negE.long.data.length < 2)
    (hshort : negE.short = none ∨ (negE.short.getD "").data.length = 1)
    (hnoeq : lastChar negE.long ≠ some '=')
    (hna : s1.negative_alias negE.long = some pos) :
    (s1.takes_arg pos = some true →
      grokList s0 (A ++ negE :: B) =
        .error (.distutilsGetoptError
          ("invalid negative alias " ++ negE.long ++ ": aliased option " ++
            pos ++ " takes a value"))) ∧
    (s1.takes_arg pos = none →
      grokList s0 (A ++ negE :: B) = .error (.keyError pos)) := by
  constructor
  · intro hta
    rw [grokList_append A (negE :: B) s0, h1]
    show grokList s1 (negE :: B) = _
    rw [show grokList s1 (negE :: B) =
        (match grokStep s1 negE with
         | .error e => .error e
         | .ok st2 => grokList st2 B) from rfl]
    rw [grokStep_alias_takesval hlen hshort hnoeq hna hta]
  · intro hta
    rw [grokList_append A (negE :: B) s0, h1]
    show grokList s1 (negE :: B) = _
    rw [show grokList s1 (negE :: B) =
        (match grokStep s1 negE with
         | .error e => .error e
         | .ok st2 => grokList st2 B) from rfl]
    rw [grokStep_alias_keyerr hlen hshort hnoeq hna hta]

/-- The engine with the positive target first. -/
def c4s0a : FancyGetopt :=
  engineWith [⟨"verbose=", some "v", none⟩, ⟨"quiet", some "q", none⟩]
    [("quiet", "verbose")]

/-- Its state after compiling the leading `verbose=` entry. -/
def c4s1a : FancyGetopt :=
  (grokList c4s0a [⟨"verbose=", some "v", none⟩]).toOption.getD c4s0a

/-- The engine with the positive target last. -/
def c4s0b : FancyGetopt :=
  engineWith [⟨"quiet", some "q", none⟩, ⟨"verbose=", some "v", none⟩]
    [("quiet", "verbose")]

/-- C4, witness: both halves of the amended statement on concrete tables --
target-first gives the ConfigurationError, target-last gives the
`KeyError`. -/
theorem C4_witness :
    grokList c4s0a ([⟨"verbose=", some "v", none⟩] ++
        ⟨"quiet", some "q", none⟩ :: []) =
      .error (.distutilsGetoptError
        ("invalid negative alias " ++ "quiet" ++ ": aliased option " ++
          "verbose" ++ " takes a value")) ∧
    grokList c4s0b ([] ++ ⟨"quiet", some "q", none⟩ ::
        [⟨"verbose=", some "v", none⟩]) =
      .error (.keyError "verbose") :=
  ⟨(C4_amended c4s0a [⟨"verbose=", some "v", none⟩] []
      ⟨"quiet", some "q", none⟩ "verbose" c4s1a rfl (by decide)
      (Or.inr (by decide)) (by decide) rfl).1 rfl,
   (C4_amended c4s0b [] [⟨"verbose=", some "v", none⟩]
      ⟨"quiet", some "q", none⟩ "verbose" c4s0b rfl (by decide)
      (Or.inr (by decide)) (by decide) rfl).2 rfl⟩

/-- C5.  Exact greedy packing with trailing-space trimming at the line
boundary, and the hard split of an over-wide chunk at exactly the width:
`wrap_text("a bb ccc", 4)` is `["a bb", "ccc"]` and
`wrap_text("abcdefgh", 4)` is `["abcd", "efgh"]`. -/
theorem C5_wrap_examples :
    wrap_text (some "a bb ccc") 4 = ["a bb", "ccc"] ∧
    wrap_text (some "abcdefgh") 4 = ["abcd", "efgh"] := by
  exact ⟨rfl, rfl⟩

/-- C6.  For every width, wrapping an absent (`None`) text yields the empty
sequence, and every text whose length is at most the width comes back as the
unchanged one-element sequence, with no tab expansion or whitespace
normalization applied. -/
theorem C6_wrap_fastpaths :
    (∀ width : Int, 0 < width → wrap_text none width = []) ∧
    (∀ (text : String) (width : Int),
      (text.data.length : Int) ≤ width → wrap_text (some text) width = [text]) := by
  constructor
  · intro width _
    rfl
  · intro text width h
    unfold wrap_text
    dsimp only
    rw [if_pos h]

/-- C6, witness: the fast paths at width 10 -- an absent text and the short
text `"short"` (which contains no whitespace to normalize; the theorem
itself returns any short text unchanged, whatever it contains). -/
theorem C6_witness :
    wrap_text none 10 = [] ∧ wrap_text (some "a\tb") 10 = ["a\tb"] :=
  ⟨C6_wrap_fastpaths.1 10 (by decide),
   C6_wrap_fastpaths.2 "a\tb" 10 (by decide)⟩

/-- C7.  Under the heap model, a successful `getopt` call leaves the list
object holding the caller's argument vector untouched and returns the
residual positional arguments as a freshly allocated list object distinct
from the caller's. -/
theorem C7_args_not_mutated (st : FancyGetopt) (h : Heap) (argsRef : Nat)
    (object : Option TargetRecord) (v : List String)
    (out : GetoptResult × Nat × Heap)
    (href : h.lists[argsRef]? = some v)
    (hok : getoptH st h argsRef object = .ok out) :
    out.2.2.lists[argsRef]? = some v ∧
    out.2.1 ≠ argsRef ∧
    out.2.2.lists[out.2.1]? = some out.1.args := by
  unfold getoptH at hok
  rw [href] at hok
  dsimp only at hok
  cases hg : st.getopt v object with
  | error e =>
    rw [hg] at hok
    exact absurd hok (by simp)
  | ok res =>
    rw [hg] at hok
    dsimp only [Heap.alloc] at hok
    have hlt : argsRef < h.lists.length := by
      have := List.getElem?_eq_some.mp href
      exact this.1
    injection hok with hout
    subst hout
    refine ⟨?_, ?_, ?_⟩
    · show (h.lists ++ [res.args])[argsRef]? = some v
      rw [List.getElem?_append, if_pos hlt]
      exact href
    · exact fun hc => absurd hc.symm (Nat.ne_of_lt hlt)
    · show (h.lists ++ [res.args])[h.lists.length]? = some res.args
      exact List.getElem?_concat_length h.lists res.args

/-- The engine, heap and call result used to witness C7. -/
def c7st : FancyGetopt := engineWith exTable exAliases

/-- A heap holding the caller's argument list at id 0. -/
def c7heap : Heap := ⟨[["--verbose", "positional"]]⟩

/-- The result of the witnessed `getopt` call. -/
def c7out : GetoptResult × Nat × Heap :=
  (getoptH c7st c7heap 0 none).toOption.getD
    (⟨[], OptionDummy, FancyGetopt.initCore none⟩, 0, ⟨[]⟩)

/-- C7, witness: parsing `["--verbose", "positional"]` through the heap
leaves the caller's list object intact and returns the residual under a
fresh id. -/
theorem C7_witness :
    c7out.2.2.lists[0]? = some ["--verbose", "positional"] ∧
    c7out.2.1 ≠ 0 ∧
    c7out.2.2.lists[c7out.2.1]? = some c7out.1.args :=
  C7_args_not_mutated c7st c7heap 0 none ["--verbose", "positional"] c7out
    rfl rfl

/-- The compiled engine used for the boolean-value contract scenario. -/
def c8eng : FancyGetopt :=
  (grok_option_table (engineWith exTable exAliases)).toOption.getD
    (engineWith exTable exAliases)

/-- C8.  When a value-less option arrives with a non-empty raw value, the
binder does not fail with the intended `DistutilsInternalError`: evaluating
the message of source line 233 references the undefined name `value` (the
variable is `val`), so the parse fails with `NameError` instead -- for the
long form and for the short form alike. -/
theorem C8_nonempty_value_nameerror :
    processOpt (c8eng, OptionDummy) ("--verbose", "x") =
      .error (.nameError "value") ∧
    processOpt (c8eng, OptionDummy) ("-v", "x") =
      .error (.nameError "value") := ⟨rfl, rfl⟩

/-- C9.  `get_option_order` cannot be used at all: the source defines it
without a `self` parameter, so the instance call raises `TypeError` (not the
documented `RuntimeError`, the UsageError of the spec); moreover `__init__`
sets `option_order` to `[]`, never `None`, so even the intended body would
return `[]` before any parse instead of raising. -/
theorem C9_get_option_order_broken :
    (FancyGetopt.initCore (some exTable)).get_option_order =
      .error (.typeError "get_option_order() takes no arguments (1 given)") ∧
    (FancyGetopt.initCore (some exTable)).option_order = some [] ∧
    get_option_order_body (FancyGetopt.initCore (some exTable)) = .ok [] :=
  ⟨rfl, rfl, rfl⟩

/-- C10.  For an option with a short name, `generate_help` emits exactly one
line when help text is present (the padded combined label plus the first
wrapped line, and no continuation lines); but when the help text is absent
the claimed padded-label-only line is never produced: the format
`"  --%-*s" % opt_names` is missing its width argument, and help generation
fails with `TypeError` (star wants int). -/
theorem C10_help_short_option :
    generate_help [⟨"foo", some "f", some "hello"⟩] none =
      .ok ["Option summary:", "  --foo (-f)  hello"] ∧
    generate_help [⟨"foo", some "f", none⟩] none =
      .error (.typeError "* wants int") := ⟨rfl, rfl⟩
